import Mathlib

/-!
Shallow embedding of the section and relocation manager of `rsgbds`
(`src/asm/sections.rs`), together with theorems checking the repository's
specification against it.

Machine integers are modelled as `Nat`/`Int` with explicit wrapping or
saturation where the source's arithmetic wraps or saturates:
`usize::saturating_add` saturates at `2^64 - 1`, `u16::wrapping_add` and
`u16::wrapping_sub` work modulo `2^16`, and the `i32 -> u32` cast is a
two's-complement reinterpretation modulo `2^32`.

The `rgbds` support crate (`Kind`, `RelocKind`, `Rpn`) and the diagnostics
plumbing (`Location`, `Fstack::make_diag_info`) are external to the file
under `src/`; they are modelled from the spec where noted.
-/

namespace Rsgbds

/-- Maximum value of the `usize` type (64-bit platform). -/
def USIZE_MAX : Nat := 2 ^ 64 - 1

/-- `usize::saturating_add`. -/
def satAdd (a b : Nat) : Nat := min (a + b) USIZE_MAX

/-- `u16::wrapping_sub` on values already reduced to 16 bits. -/
def wsub16 (a b : Nat) : Nat := (a + (65536 - b % 65536)) % 65536

/-- Source locations are opaque to this module; they are only threaded through
into diagnostics, so we model them as bare numbers. -/
abbrev Location := Nat

/-- `Fstack::make_diag_info(&loc, Some(&loc))` output, modelled as the pair of
locations it is built from (diagnostic bookkeeping is out of scope). -/
abbrev DiagInfo := Location × Option Location

/-- `Fstack::make_diag_info(&d.0, Some(&d.1))` as used in `add_section`. -/
def makeDiagInfo (d : Location × Location) : DiagInfo := (d.1, some d.2)

/-- Modelled from the spec: `Kind` (the `MemoryRegionKind`) lives in the
external `rgbds` crate. The spec describes it as a memory-region
classification carrying a fixed start address, a maximum byte size
(`kind.size(true, true)` at the assembly stage), an inclusive legal bank
range (`kind.banks(true)`), whether banking is legal at all (the source
tests `matches!(kind, Kind::Romx | Kind::Vram | Kind::Sram | Kind::Wramx)`),
and a predicate for whether the region holds emittable data. -/
structure Kind where
  has_data : Bool
  start_addr : Nat
  size : Nat
  banks_start : Nat
  banks_end : Nat
  bankable : Bool
deriving DecidableEq, Repr

/-- Modelled from the spec: `RelocKind` (external `rgbds` crate) is a
value-kind descriptor whose declared byte width is 1–4; we record the width
as `w + 1` for `w : Fin 4`. -/
structure RelocKind where
  w : Fin 4
deriving DecidableEq, Repr

/-- The declared byte width of a value kind (1–4). -/
def RelocKind.width (k : RelocKind) : Nat := k.w.val + 1

/-- Modelled from the spec: `Rpn` (external `rgbds` crate) is an opaque
encoded expression whose only operation used here is `try_get_constant`,
returning the `i32` constant it folds to, if any. -/
structure Rpn where
  constVal : Option Int
deriving DecidableEq, Repr

/-- `Rpn::try_get_constant`. -/
def Rpn.try_get_constant (r : Rpn) : Option Int := r.constVal

/-- `i32::to_le_bytes` of the constant: four little-endian bytes of the
two's-complement representation. -/
def toLeBytes (c : Int) : List Nat :=
  let u := (c % 4294967296).toNat
  [u % 256, u / 256 % 256, u / 65536 % 256, u / 16777216 % 256]

/-- `Modifier` from `rgbds::section`. -/
inductive Modifier
  | Normal
  | Union
  | Fragment
deriving DecidableEq, Repr

/-- `NormalizedSectAttrs`: `address: Option<u16>`, `bank: Option<u32>`,
`alignment: u8`, `align_offset: u16`. -/
structure NormalizedSectAttrs where
  address : Option Nat
  bank : Option Nat
  alignment : Nat
  align_offset : Nat
deriving DecidableEq, Repr

/-- `Relocation`: one deferred patch. Section symbols (`SymbolU32`) are
modelled by the interned name itself, a `String`. -/
structure Relocation where
  definition : Location × Location
  offset : Nat
  pc_section : Option String
  pc_offset : Nat
  kind : RelocKind
  rpn : Rpn
deriving DecidableEq, Repr

/-- `ByteOrExpr` from `crate::expr`: either one raw byte or a value
expression with its span and value kind. -/
inductive ByteOrExpr
  | Byte (b : Nat)
  | Expr (defBegin defEnd : Location) (rpn : Rpn) (kind : RelocKind)
deriving DecidableEq, Repr

/-- `SectionData`: the persistent per-name section record. -/
structure SectionData where
  kind : Kind
  modifier : Modifier
  definition : Location × Location
  attrs : NormalizedSectAttrs
  patches : List Relocation
  data : List Nat
  len_virt : Nat
deriving DecidableEq, Repr

/-- `SectionData::new`. -/
def SectionData.new (kind : Kind) (modifier : Modifier)
    (definition : Location × Location) (attrs : NormalizedSectAttrs) :
    SectionData :=
  { kind, modifier, definition, attrs, patches := [], data := [], len_virt := 0 }

/-- `Union`: an open union region inside an active section. -/
structure Union where
  start_ofs : Nat
  len : Nat
deriving DecidableEq, Repr

/-- `ActiveSection`: the transient per-scope cursor. -/
structure ActiveSection where
  name : String
  offset : Nat
  pc_section : Option String
  pc_offset : Nat
  label_scope : Option String
  union_stack : List Union
deriving DecidableEq, Repr

/-- `ActiveSection::new`. -/
def ActiveSection.new (name : String) (offset : Nat) : ActiveSection :=
  { name, offset, pc_section := none, pc_offset := 0, label_scope := none,
    union_stack := [] }

/-- `AsmErrorKind`, restricted to the variants this module produces.
`IncompatibleUnionConstraints` is modelled from the spec §4.5 ("truly
incompatible constraints are an error") for the reconciliation that the
source leaves `todo!()`. -/
inductive AsmErrorKind
  | SectAlreadyDefined (name : String) (other : DiagInfo)
  | DifferentSectMod (name : String) (m : Modifier) (other : DiagInfo)
  | DifferentSectKind (name : String) (k : Kind) (other : DiagInfo)
  | RomUnion (k : Kind)
  | NotCodeSection (k : Kind)
  | AddrOutOfRange (v : Int)
  | AddrOutOfBounds (addr lo hi : Nat)
  | Unbanked (k : Kind)
  | BankOutOfRange (bank lo hi : Nat)
  | AlignOutOfRange (v : Int)
  | AlignOfsOutOfRange (v bound : Int)
  | AlignMismatch (addr : Nat) (alignment : Nat) (ofs : Nat)
  | OverAligned (alignment : Nat) (k : Kind)
  | DifferentBank (name : String) (cur new : Nat)
  | IncompatibleUnionConstraints (name : String)
deriving DecidableEq, Repr

/-- `AsmError`: an error kind together with the span it is reported at. -/
structure AsmError where
  beginLoc : Location
  endLoc : Location
  kind : AsmErrorKind
deriving DecidableEq, Repr

/-- The section store and active-section stack. The Rust `Vec` keeps the top
of the stack at the back; this list keeps the top at the head. Interned
names (`SymbolU32`) are modelled by the strings themselves, so the
`StringInterner` field disappears. -/
structure Sections where
  sections : List (String × SectionData)
  stack : List (Option ActiveSection)
deriving DecidableEq, Repr

/-- `SectionHandle`: a read handle pairing the active cursor with its
section record. -/
structure SectionHandle where
  act : ActiveSection
  sect : SectionData
deriving DecidableEq, Repr

/-- `SectionHandleMut`: a write handle pairing the active cursor with its
section record; `extend` threads it as explicit state. -/
structure SectionHandleMut where
  act : ActiveSection
  sect : SectionData
deriving DecidableEq, Repr

/-- `SectionHandle::try_get_pc`: the pinned base address plus the data
length converted to `u16` (`try_into().unwrap_or(u16::MAX)`, i.e. saturated
at 65535), combined with `u16::wrapping_add` (modulo `2^16`). -/
def try_get_pc (h : SectionHandle) : Option Nat :=
  h.sect.attrs.address.map fun base_addr =>
    (base_addr + (if h.sect.data.length ≤ 65535 then h.sect.data.length else 65535)) % 65536

/-- The byte width one batch item contributes (`Byte` → 1, `Expr` → the
value kind's width), as folded in `extend`. -/
def itemWidth : ByteOrExpr → Nat
  | .Byte _ => 1
  | .Expr _ _ _ kind => kind.width

/-- `extend`'s `total_len` fold over the batch. -/
def totalLen (batch : List ByteOrExpr) : Nat :=
  batch.foldl (fun len item => len + itemWidth item) 0

/-- The body of `extend`'s write loop for one item. Raw bytes are pushed
literally; a constant expression writes the low `width` little-endian bytes
of the constant (the truncation check only feeds the `warn` callback and
does not change section state); a non-constant expression records a
`Relocation` at the current cursor and writes `width` zero placeholder
bytes. Afterwards `offset` and `pc_offset` advance by the item's width. -/
def emitItem (s : SectionHandleMut) (item : ByteOrExpr) : SectionHandleMut :=
  match item with
  | .Byte b =>
    { act := { s.act with
        offset := s.act.offset + 1
        pc_offset := s.act.pc_offset + 1 },
      sect := { s.sect with data := s.sect.data ++ [b] } }
  | .Expr defBegin defEnd rpn kind =>
    let len := kind.width
    match rpn.try_get_constant with
    | some c =>
      { act := { s.act with
          offset := s.act.offset + len
          pc_offset := s.act.pc_offset + len },
        sect := { s.sect with data := s.sect.data ++ (toLeBytes c).take len } }
    | none =>
      { act := { s.act with
          offset := s.act.offset + len
          pc_offset := s.act.pc_offset + len },
        sect := { s.sect with
          patches := s.sect.patches ++
            [{ definition := (defBegin, defEnd)
               offset := s.act.offset
               pc_section := s.act.pc_section
               pc_offset := s.act.pc_offset
               kind := kind
               rpn := rpn }]
          data := s.sect.data ++ List.replicate len 0 } }

/-- `SectionHandleMut::extend`. Fails with `NotCodeSection` if the kind
holds no data; otherwise adds the batch's total width to `len_virt` with
`usize::saturating_add`, and only when the updated `len_virt` is at most
`kind.size(true, true)` runs the write loop over the batch. The Rust
method mutates through `&mut`; here the updated handle is returned next to
the `Result<(), AsmErrorKind>`. -/
def extend (s : SectionHandleMut) (batch : List ByteOrExpr) :
    SectionHandleMut × Except AsmErrorKind Unit :=
  if s.sect.kind.has_data = false then
    (s, .error (.NotCodeSection s.sect.kind))
  else
    let lv := satAdd s.sect.len_virt (totalLen batch)
    let s1 : SectionHandleMut := { s with sect := { s.sect with len_virt := lv } }
    if lv ≤ s.sect.kind.size then
      (batch.foldl emitItem s1, .ok ())
    else
      (s1, .ok ())

/-- The address `eval` closure of `NormalizedSectAttrs::try_new`: the `i32`
value must convert to `u16` (else `AddrOutOfRange`) and satisfy
`addr.wrapping_sub(start_addr) < size` (else `AddrOutOfBounds`). The
expression evaluator is external; the already-evaluated constant comes in
as `Option Int`. -/
def checkAddr (kind : Kind) : Option Int → Except AsmErrorKind (Option Nat)
  | none => .ok none
  | some a =>
    if 0 ≤ a ∧ a < 65536 then
      let addr := a.toNat
      if wsub16 addr kind.start_addr < kind.size then .ok (some addr)
      else .error (.AddrOutOfBounds addr kind.start_addr
        (kind.start_addr + (kind.size - 1)))
    else .error (.AddrOutOfRange a)

/-- The bank `eval` closure of `try_new`: non-bankable kinds are rejected
with `Unbanked`; the `bank as u32` cast reinterprets the `i32` modulo
`2^32`; the result must lie in the kind's inclusive bank range. -/
def checkBank (kind : Kind) : Option Int → Except AsmErrorKind (Option Nat)
  | none => .ok none
  | some b =>
    if kind.bankable = false then .error (.Unbanked kind)
    else
      let bu := (b % 4294967296).toNat
      if kind.banks_start ≤ bu ∧ bu ≤ kind.banks_end then .ok (some bu)
      else .error (.BankOutOfRange bu kind.banks_start kind.banks_end)

/-- The alignment `eval` closure of `try_new` (`0..=16` else
`AlignOutOfRange`), with the `unwrap_or(0)` default. -/
def checkAlign : Option Int → Except AsmErrorKind Nat
  | none => .ok 0
  | some al =>
    if 0 ≤ al ∧ al ≤ 16 then .ok al.toNat
    else .error (.AlignOutOfRange al)

/-- The alignment-offset `eval` closure of `try_new`
(`0 <= offset < 1 << alignment` else `AlignOfsOutOfRange`), with the
`unwrap_or(0)` default. -/
def checkAlignOfs (alignment : Nat) : Option Int → Except AsmErrorKind Nat
  | none => .ok 0
  | some o =>
    if 0 ≤ o ∧ o < (2 : Int) ^ alignment then .ok o.toNat
    else .error (.AlignOfsOutOfRange o ((2 : Int) ^ alignment))

/-- The post-processing checks of `try_new`: the alignment block (mask of
the low `alignment` bits; an explicit address must match `align_offset` and
then collapses alignment to 0; otherwise an over-aligned kind is rejected;
alignment 16 collapses to the sentinel address 16), then forcing the bank
for single-bank kinds. The source mutates `address`/`alignment`/`bank` and
builds the record once at the end; here the final record (with the forced
bank, which none of the alignment branches touch) is written out in each
branch. -/
def postProcess (kind : Kind) (address bank : Option Nat)
    (alignment align_offset : Nat) : Except AsmErrorKind NormalizedSectAttrs :=
  let bank' := if kind.banks_start = kind.banks_end then some kind.banks_start else bank
  if alignment ≠ 0 then
    let mask := 65535 >>> (16 - alignment)
    match address with
    | some addr =>
      if addr &&& mask ≠ align_offset then
        .error (.AlignMismatch addr alignment align_offset)
      else
        .ok { address := some addr, bank := bank', alignment := 0, align_offset }
    | none =>
      if kind.start_addr &&& mask ≠ 0 then .error (.OverAligned alignment kind)
      else if alignment = 16 then
        .ok { address := some 16, bank := bank', alignment := 0, align_offset }
      else
        .ok { address := none, bank := bank', alignment := alignment, align_offset }
  else .ok { address := address, bank := bank', alignment := alignment, align_offset }

/-- `NormalizedSectAttrs::try_new`, over the already-evaluated attribute
constants (the expression evaluator is an external collaborator): the four
`eval` calls run in source order (address, bank, alignment, alignment
offset), each propagating its error, then the post-processing checks. -/
def try_new (kind : Kind) (address bank alignment offset : Option Int) :
    Except AsmErrorKind NormalizedSectAttrs :=
  match checkAddr kind address with
  | .error e => .error e
  | .ok addr =>
    match checkBank kind bank with
    | .error e => .error e
    | .ok bk =>
      match checkAlign alignment with
      | .error e => .error e
      | .ok al =>
        match checkAlignOfs al offset with
        | .error e => .error e
        | .ok ofs => postProcess kind addr bk al ofs

/-- `NormalizedSectAttrs::merge`: bank reconciliation shared by the union
and fragment paths. -/
def NormalizedSectAttrs.merge (self : NormalizedSectAttrs) (name : String)
    (other : NormalizedSectAttrs) :
    Except AsmErrorKind (NormalizedSectAttrs × String) :=
  match self.bank, other.bank with
  | some cur, some nw =>
    if cur ≠ nw then .error (.DifferentBank name cur nw) else .ok (self, name)
  | none, other_bank => .ok ({ self with bank := other_bank }, name)
  | some _, none => .ok (self, name)

/-- Modelled from the spec: the address/alignment reconciliation of
`NormalizedSectAttrs::merge_union` is left `todo!()` in the source. Spec
§4.5 specifies it as: two address constraints conflict unless equal; two
alignment constraints combine via the least common multiple of the periods
(for powers of two, the larger exponent), with residues that must agree
modulo the smaller period; incompatible constraints are an error. -/
def NormalizedSectAttrs.merge_union (self : NormalizedSectAttrs) (name : String)
    (other : NormalizedSectAttrs) : Except AsmErrorKind NormalizedSectAttrs :=
  match self.merge name other with
  | .error e => .error e
  | .ok (merged, name) =>
    let addrRes : Except AsmErrorKind (Option Nat) :=
      match merged.address, other.address with
      | some a, some b =>
        if a = b then .ok (some a) else .error (.IncompatibleUnionConstraints name)
      | none, ob => .ok ob
      | some a, none => .ok (some a)
    match addrRes with
    | .error e => .error e
    | .ok addr =>
      let amin := min merged.alignment other.alignment
      if merged.align_offset % 2 ^ amin = other.align_offset % 2 ^ amin then
        let al := if other.alignment ≤ merged.alignment then
          (merged.alignment, merged.align_offset)
        else (other.alignment, other.align_offset)
        .ok { address := addr, bank := merged.bank, alignment := al.1,
              align_offset := al.2 }
      else .error (.IncompatibleUnionConstraints name)

/-- Modelled from the spec: `NormalizedSectAttrs::concat_fragments` is
`todo!()` after the shared bank reconciliation; spec §4.5 says it "performs
the same bank reconciliation but does not alias addresses", so the stored
placement constraints are kept as merged by `merge`. -/
def NormalizedSectAttrs.concat_fragments (self : NormalizedSectAttrs)
    (name : String) (other : NormalizedSectAttrs) :
    Except AsmErrorKind NormalizedSectAttrs :=
  match self.merge name other with
  | .error e => .error e
  | .ok (merged, _) => .ok merged

/-- `*self.stack.last_mut().unwrap() = Some(ActiveSection::new(name, offset))`;
the top of the stack is this list's head. The Rust code unwraps because the
stack is never empty; an empty list is completed to a singleton. -/
def set_active (stack : List (Option ActiveSection)) (name : String)
    (offset : Nat) : List (Option ActiveSection) :=
  match stack with
  | [] => [some (ActiveSection.new name offset)]
  | _ :: rest => some (ActiveSection.new name offset) :: rest

/-- In-place update of the occupied entry in the section store. -/
def updateSection (l : List (String × SectionData)) (name : String)
    (sd : SectionData) : List (String × SectionData) :=
  l.map fun p => if p.1 = name then (name, sd) else p

/-- `Sections::add_section`. A vacant name inserts a fresh record and starts
at offset 0. An occupied name is checked in source order: a stored `Normal`
modifier always conflicts; then differing modifiers, then differing kinds;
a `Union` redeclaration whose kind holds data is `RomUnion`, otherwise the
attrs merge and the cursor restarts at 0; a `Fragment` redeclaration merges
attrs and continues at the accumulated length (modelled from the spec: the
offset is `todo!()` in the source, next to the comment "len_virt, or real
len?", and spec §4.2 says "continue appending at the *current* accumulated
length"). On success the top stack slot becomes the new cursor. -/
def add_section (s : Sections) (name : String) (kind : Kind)
    (modifier : Modifier) (attrs : NormalizedSectAttrs)
    (def_begin def_end : Location) : Except AsmError Sections :=
  match s.sections.lookup name with
  | none =>
    let sd := SectionData.new kind modifier (def_begin, def_end) attrs
    .ok { sections := (name, sd) :: s.sections,
          stack := set_active s.stack name 0 }
  | some other =>
    let res : Except AsmErrorKind (SectionData × Nat) :=
      match other.modifier with
      | .Normal =>
        .error (.SectAlreadyDefined name (makeDiagInfo other.definition))
      | .Union =>
        if modifier ≠ .Union then
          .error (.DifferentSectMod name other.modifier (makeDiagInfo other.definition))
        else if other.kind ≠ kind then
          .error (.DifferentSectKind name other.kind (makeDiagInfo other.definition))
        else if kind.has_data then .error (.RomUnion kind)
        else match other.attrs.merge_union name attrs with
          | .error e => .error e
          | .ok a => .ok ({ other with attrs := a }, 0)
      | .Fragment =>
        if modifier ≠ .Fragment then
          .error (.DifferentSectMod name other.modifier (makeDiagInfo other.definition))
        else if other.kind ≠ kind then
          .error (.DifferentSectKind name other.kind (makeDiagInfo other.definition))
        else match other.attrs.concat_fragments name attrs with
          | .error e => .error e
          | .ok a => .ok ({ other with attrs := a }, other.len_virt)
    match res with
    | .error k => .error { beginLoc := def_begin, endLoc := def_end, kind := k }
    | .ok (sd, offset) =>
      .ok { sections := updateSection s.sections name sd,
            stack := set_active s.stack name offset }

/-! ## Helper definitions and lemmas -/

/-- The bytes one batch item appends to the data buffer (independent of the
cursor state, unlike the recorded relocations). -/
def itemBytes : ByteOrExpr → List Nat
  | .Byte b => [b]
  | .Expr _ _ rpn kind =>
    match rpn.try_get_constant with
    | some c => (toLeBytes c).take kind.width
    | none => List.replicate kind.width 0

/-- All bytes a batch appends, in order. -/
def batchBytes (batch : List ByteOrExpr) : List Nat :=
  (batch.map itemBytes).flatten

theorem batchBytes_nil : batchBytes [] = [] := rfl

theorem batchBytes_cons (it : ByteOrExpr) (rest : List ByteOrExpr) :
    batchBytes (it :: rest) = itemBytes it ++ batchBytes rest := by
  simp [batchBytes]

theorem RelocKind.width_le_four (k : RelocKind) : k.width ≤ 4 := by
  have := k.w.isLt
  simp only [RelocKind.width]
  omega

theorem itemBytes_length (it : ByteOrExpr) :
    (itemBytes it).length = itemWidth it := by
  cases it with
  | Byte b => rfl
  | Expr b e rpn kind =>
    cases h : rpn.try_get_constant with
    | none => simp [itemBytes, itemWidth, h]
    | some c =>
      have hw := kind.width_le_four
      simp [itemBytes, itemWidth, h, toLeBytes]
      omega

theorem emitItem_sect_data (s : SectionHandleMut) (it : ByteOrExpr) :
    (emitItem s it).sect.data = s.sect.data ++ itemBytes it := by
  cases it with
  | Byte b => rfl
  | Expr b e rpn kind =>
    cases h : rpn.try_get_constant with
    | none => simp [emitItem, itemBytes, h]
    | some c => simp [emitItem, itemBytes, h]

theorem emitItem_sect_len_virt (s : SectionHandleMut) (it : ByteOrExpr) :
    (emitItem s it).sect.len_virt = s.sect.len_virt := by
  cases it with
  | Byte b => rfl
  | Expr b e rpn kind =>
    cases h : rpn.try_get_constant with
    | none => simp [emitItem, h]
    | some c => simp [emitItem, h]

theorem emitItem_sect_kind (s : SectionHandleMut) (it : ByteOrExpr) :
    (emitItem s it).sect.kind = s.sect.kind := by
  cases it with
  | Byte b => rfl
  | Expr b e rpn kind =>
    cases h : rpn.try_get_constant with
    | none => simp [emitItem, h]
    | some c => simp [emitItem, h]

theorem foldl_emitItem_data (batch : List ByteOrExpr) :
    ∀ s : SectionHandleMut,
      (batch.foldl emitItem s).sect.data = s.sect.data ++ batchBytes batch := by
  induction batch with
  | nil => intro s; simp [batchBytes]
  | cons it rest ih =>
    intro s
    simp only [List.foldl_cons, ih, emitItem_sect_data, batchBytes_cons,
      List.append_assoc]

theorem foldl_emitItem_len_virt (batch : List ByteOrExpr) :
    ∀ s : SectionHandleMut,
      (batch.foldl emitItem s).sect.len_virt = s.sect.len_virt := by
  induction batch with
  | nil => intro s; rfl
  | cons it rest ih =>
    intro s
    simp only [List.foldl_cons, ih, emitItem_sect_len_virt]

theorem foldl_emitItem_kind (batch : List ByteOrExpr) :
    ∀ s : SectionHandleMut,
      (batch.foldl emitItem s).sect.kind = s.sect.kind := by
  induction batch with
  | nil => intro s; rfl
  | cons it rest ih =>
    intro s
    simp only [List.foldl_cons, ih, emitItem_sect_kind]

theorem totalLen_foldl (l : List ByteOrExpr) :
    ∀ n : Nat, l.foldl (fun len item => len + itemWidth item) n =
      n + l.foldl (fun len item => len + itemWidth item) 0 := by
  induction l with
  | nil => intro n; simp
  | cons it rest ih =>
    intro n
    simp only [List.foldl_cons]
    rw [ih (n + itemWidth it), ih (0 + itemWidth it)]
    omega

theorem totalLen_cons (it : ByteOrExpr) (rest : List ByteOrExpr) :
    totalLen (it :: rest) = itemWidth it + totalLen rest := by
  simp only [totalLen, List.foldl_cons]
  rw [totalLen_foldl rest (0 + itemWidth it)]
  omega

theorem batchBytes_length (batch : List ByteOrExpr) :
    (batchBytes batch).length = totalLen batch := by
  induction batch with
  | nil => rfl
  | cons it rest ih =>
    rw [batchBytes_cons, List.length_append, itemBytes_length, totalLen_cons, ih]

theorem set_active_head (stack : List (Option ActiveSection)) (name : String)
    (offset : Nat) :
    (set_active stack name offset).head? = some (some (ActiveSection.new name offset)) := by
  cases stack <;> rfl

/-- Example kinds and attributes used to witness the theorems on concrete
inputs: fixed-ROM-like, a two-byte capacity region, switchable-ROM-like,
high-RAM-like, and a pure-reservation region. -/
def exKindRom : Kind := ⟨true, 0, 32768, 0, 0, false⟩

def exKindTiny : Kind := ⟨true, 0, 2, 0, 0, false⟩

def exKindRomx : Kind := ⟨true, 16384, 16384, 1, 511, true⟩

def exKindHram : Kind := ⟨true, 65408, 127, 0, 0, false⟩

def exKindBss : Kind := ⟨false, 49152, 4096, 0, 0, false⟩

def exAttrs0 : NormalizedSectAttrs := ⟨none, none, 0, 0⟩

/-- A handle whose section has already overflowed its two-byte capacity:
`len_virt` is 3 while no byte was ever written. -/
def exOverflowed : SectionHandleMut :=
  ⟨ActiveSection.new "t" 3,
   { kind := exKindTiny, modifier := .Normal, definition := (0, 0),
     attrs := exAttrs0, patches := [], data := [], len_virt := 3 }⟩

/-- A fresh handle on a data-holding section. -/
def exFresh : SectionHandleMut :=
  ⟨ActiveSection.new "s" 0, SectionData.new exKindRom .Normal (0, 0) exAttrs0⟩

/-! ## Claims -/

/-- C1: `extend` on an active data-holding section adds the batch's total
byte width (1 per raw byte, the declared width per value) to `len_virt`
unconditionally (here below the `usize` saturation point), and appends the
batch's bytes to the data buffer exactly when the post-increment `len_virt`
is at most the kind's maximum size; an overflowing batch writes nothing, so
the next batch again adds its own size to `len_virt` without writing. -/
theorem extend_tracks_virtual_length (s : SectionHandleMut)
    (batch : List ByteOrExpr)
    (hdata : s.sect.kind.has_data = true)
    (hfit : s.sect.len_virt + totalLen batch ≤ USIZE_MAX) :
    (extend s batch).1.sect.len_virt = s.sect.len_virt + totalLen batch ∧
    (extend s batch).2 = .ok () ∧
    (s.sect.len_virt + totalLen batch ≤ s.sect.kind.size →
      (extend s batch).1.sect.data = s.sect.data ++ batchBytes batch) ∧
    (s.sect.kind.size < s.sect.len_virt + totalLen batch →
      (extend s batch).1.sect.data = s.sect.data) := by
  have hsat : satAdd s.sect.len_virt (totalLen batch) =
      s.sect.len_virt + totalLen batch := by
    simp [satAdd, min_eq_left hfit]
  have key : extend s batch =
      (if s.sect.len_virt + totalLen batch ≤ s.sect.kind.size then
        (batch.foldl emitItem
          { s with sect := { s.sect with
              len_virt := s.sect.len_virt + totalLen batch } }, Except.ok ())
      else
        ({ s with sect := { s.sect with
            len_virt := s.sect.len_virt + totalLen batch } }, Except.ok ())) := by
    simp [extend, hdata, hsat]
  by_cases hle : s.sect.len_virt + totalLen batch ≤ s.sect.kind.size
  · rw [key, if_pos hle]
    refine ⟨?_, rfl, fun _ => ?_, fun hgt => absurd hle (by omega)⟩
    · rw [foldl_emitItem_len_virt]
    · rw [foldl_emitItem_data]
  · rw [key, if_neg hle]
    exact ⟨rfl, rfl, fun hfits => absurd hfits hle, fun _ => rfl⟩

/-- Witness for C1 at a concrete input: after a batch has overflowed the
two-byte section (`len_virt` 3, empty buffer), one more one-byte batch
still raises `len_virt` to 4 and writes nothing. -/
theorem extend_tracks_virtual_length_witness :
    (extend exOverflowed [ByteOrExpr.Byte 4]).1.sect.len_virt = 4 ∧
    (extend exOverflowed [ByteOrExpr.Byte 4]).1.sect.data = [] := by
  have h := extend_tracks_virtual_length exOverflowed [ByteOrExpr.Byte 4]
    (by decide) (by decide)
  refine ⟨?_, ?_⟩
  · rw [h.1]; decide
  · rw [h.2.2.2 (by decide)]; rfl

/-- C2: emitting one value item whose expression does not fold to a
constant (the body of `extend`'s write loop) records exactly one
`Relocation` at the pre-emission cursor offset, carrying the cursor's
`pc_section` and `pc_offset`, appends exactly `width` zero placeholder
bytes, and advances both `offset` and `pc_offset` by that width. -/
theorem emit_nonconstant_records_relocation (act : ActiveSection)
    (sect : SectionData) (defBegin defEnd : Location) (rpn : Rpn)
    (kind : RelocKind) (h : rpn.try_get_constant = none) :
    emitItem ⟨act, sect⟩ (.Expr defBegin defEnd rpn kind) =
      ⟨{ act with
          offset := act.offset + kind.width
          pc_offset := act.pc_offset + kind.width },
       { sect with
          patches := sect.patches ++
            [{ definition := (defBegin, defEnd)
               offset := act.offset
               pc_section := act.pc_section
               pc_offset := act.pc_offset
               kind := kind
               rpn := rpn }]
          data := sect.data ++ List.replicate kind.width 0 }⟩ := by
  simp [emitItem, h]

/-- Witness for C2 at a concrete input: a two-byte non-constant value in a
fresh section records one relocation at offset 0 and writes two zeros. -/
theorem emit_nonconstant_records_relocation_witness :
    emitItem exFresh (.Expr 5 6 ⟨none⟩ ⟨1⟩) =
      ⟨{ exFresh.act with offset := 2, pc_offset := 2 },
       { exFresh.sect with
          patches := [{ definition := (5, 6), offset := 0, pc_section := none,
                        pc_offset := 0, kind := ⟨1⟩, rpn := ⟨none⟩ }]
          data := [0, 0] }⟩ := by
  have h := emit_nonconstant_records_relocation exFresh.act exFresh.sect
    5 6 ⟨none⟩ ⟨1⟩ rfl
  rw [h]; rfl

/-- A section handle pinned near the top of the address space: base address
`0xFFFE` inside a high-RAM-like region, with two bytes emitted. -/
def exHandleHram : SectionHandle :=
  ⟨ActiveSection.new "hram" 0,
   { kind := exKindHram, modifier := .Normal, definition := (0, 0),
     attrs := { address := some 65534, bank := none, alignment := 0,
                align_offset := 0 },
     patches := [], data := [0, 0], len_virt := 2 }⟩

/-- C3 counterexample: for a section pinned at `0xFFFE` with two data bytes,
`try_get_pc` returns `some 0` — the 16-bit addition wraps — while the
claimed saturating behaviour would return `some (min (65534 + 2) 65535)`,
i.e. `some 65535`. -/
theorem try_get_pc_wraps_counterexample :
    try_get_pc exHandleHram = some 0 ∧
    (some 0 : Option Nat) ≠ some (min (65534 + 2) 65535) := by
  constructor
  · rfl
  · decide

/-- C3 amended: `try_get_pc` returns `none` for a section with no pinned
address; otherwise it returns `(address + min(data.len, 65535)) mod 2^16` —
the conversion of the data length to `u16` saturates at `u16::MAX`, but the
subsequent addition wraps modulo `2^16` rather than saturating. -/
theorem try_get_pc_amended (h : SectionHandle) :
    (h.sect.attrs.address = none → try_get_pc h = none) ∧
    (∀ base, h.sect.attrs.address = some base →
      try_get_pc h = some ((base + min h.sect.data.length 65535) % 65536)) := by
  constructor
  · intro hnone
    simp [try_get_pc, hnone]
  · intro base hbase
    simp only [try_get_pc, hbase, Option.map_some']
    congr 1

/-- Witness for the amended C3 at a concrete input: the wrapped value at
base `0xFFFE` with two data bytes. -/
theorem try_get_pc_amended_witness :
    try_get_pc exHandleHram = some ((65534 + min 2 65535) % 65536) :=
  (try_get_pc_amended exHandleHram).2 65534 rfl

/-- A handle on a pure-reservation (non-data) section with nonempty prior
state, to witness that a failing `extend` changes nothing. -/
def exBssHandle : SectionHandleMut :=
  ⟨{ ActiveSection.new "bss" 7 with pc_offset := 9 },
   { kind := exKindBss, modifier := .Normal, definition := (0, 0),
     attrs := exAttrs0, patches := [], data := [], len_virt := 5 }⟩

/-- C9: `extend` on an active section whose kind cannot hold emitted bytes
fails with `NotCodeSection` and returns the handle unchanged — data buffer,
`len_virt`, relocation list, cursor `offset` and `pc_offset` all included. -/
theorem extend_not_data_section (s : SectionHandleMut)
    (batch : List ByteOrExpr) (h : s.sect.kind.has_data = false) :
    extend s batch = (s, .error (.NotCodeSection s.sect.kind)) := by
  simp [extend, h]

/-- Witness for C9 at a concrete input: extending a reservation-only
section fails and leaves the concrete prior state intact. -/
theorem extend_not_data_section_witness :
    extend exBssHandle [ByteOrExpr.Byte 1] =
      (exBssHandle, .error (.NotCodeSection exKindBss)) := by
  have h := extend_not_data_section exBssHandle [ByteOrExpr.Byte 1] rfl
  rw [h]; rfl

/-- Unfolding of `extend` once the data-holding check has passed. -/
theorem extend_eq_of_has_data (s : SectionHandleMut) (batch : List ByteOrExpr)
    (hdata : s.sect.kind.has_data = true) :
    extend s batch =
      (if satAdd s.sect.len_virt (totalLen batch) ≤ s.sect.kind.size then
        (batch.foldl emitItem
          { s with sect := { s.sect with
              len_virt := satAdd s.sect.len_virt (totalLen batch) } }, Except.ok ())
      else
        ({ s with sect := { s.sect with
            len_virt := satAdd s.sect.len_virt (totalLen batch) } }, Except.ok ())) := by
  simp [extend, hdata]

theorem extend_sect_kind (s : SectionHandleMut) (batch : List ByteOrExpr) :
    (extend s batch).1.sect.kind = s.sect.kind := by
  cases hd : s.sect.kind.has_data with
  | false => simp [extend, hd]
  | true =>
    rw [extend_eq_of_has_data s batch hd]
    split
    · simp [foldl_emitItem_kind]
    · simp

theorem extend_sect_len_virt (s : SectionHandleMut) (batch : List ByteOrExpr)
    (hdata : s.sect.kind.has_data = true) :
    (extend s batch).1.sect.len_virt = satAdd s.sect.len_virt (totalLen batch) := by
  rw [extend_eq_of_has_data s batch hdata]
  split
  · simp [foldl_emitItem_len_virt]
  · simp

/-- The length invariant of `SectionData` relating the real buffer length to
the virtual length: the buffer never exceeds the virtual length (the
`usize` counter), and they agree while the virtual length is within the
kind's capacity — exactly the fact `debug_assert_eq!` checks at the end of
`extend`'s write branch. -/
def SDInv (sd : SectionData) : Prop :=
  sd.len_virt ≤ USIZE_MAX ∧ sd.data.length ≤ sd.len_virt ∧
  (sd.len_virt ≤ sd.kind.size → sd.data.length = sd.len_virt)

instance (sd : SectionData) : Decidable (SDInv sd) := by
  unfold SDInv
  infer_instance

theorem SDInv_extend (s : SectionHandleMut) (batch : List ByteOrExpr)
    (hsize : s.sect.kind.size < USIZE_MAX) (hinv : SDInv s.sect) :
    SDInv (extend s batch).1.sect := by
  obtain ⟨hM, hlen, heq⟩ := hinv
  cases hd : s.sect.kind.has_data with
  | false =>
    have hres : (extend s batch).1 = s := by simp [extend, hd]
    rw [hres]
    exact ⟨hM, hlen, heq⟩
  | true =>
    rw [extend_eq_of_has_data s batch hd]
    by_cases hc : satAdd s.sect.len_virt (totalLen batch) ≤ s.sect.kind.size
    · rw [if_pos hc]
      have hnosat : satAdd s.sect.len_virt (totalLen batch) =
          s.sect.len_virt + totalLen batch := by
        rcases Nat.le_total (s.sect.len_virt + totalLen batch) USIZE_MAX with h1 | h1
        · exact min_eq_left h1
        · have h2 : satAdd s.sect.len_virt (totalLen batch) = USIZE_MAX :=
            min_eq_right h1
          omega
      have hlv0 : s.sect.len_virt ≤ s.sect.kind.size := by omega
      have hdl : s.sect.data.length = s.sect.len_virt := heq hlv0
      have hk := foldl_emitItem_kind batch
        { s with sect := { s.sect with
            len_virt := satAdd s.sect.len_virt (totalLen batch) } }
      have hv := foldl_emitItem_len_virt batch
        { s with sect := { s.sect with
            len_virt := satAdd s.sect.len_virt (totalLen batch) } }
      have hdta := foldl_emitItem_data batch
        { s with sect := { s.sect with
            len_virt := satAdd s.sect.len_virt (totalLen batch) } }
      dsimp only at hk hv hdta
      refine ⟨?_, ?_, fun _ => ?_⟩
      · rw [hv]
        exact min_le_right _ _
      · rw [hv, hdta]
        simp only [List.length_append, batchBytes_length]
        omega
      · rw [hv, hdta]
        simp only [List.length_append, batchBytes_length]
        omega
    · rw [if_neg hc]
      refine ⟨min_le_right _ _, ?_, fun h => absurd h hc⟩
      have : s.sect.len_virt ≤ satAdd s.sect.len_virt (totalLen batch) :=
        Nat.le_min.mpr ⟨Nat.le_add_right _ _, hM⟩
      simpa using hlen.trans this

/-- C10: `extend` preserves the invariant that the data buffer's length
never exceeds `len_virt` and equals it whenever `len_virt` is at most the
kind's maximum size; a freshly created section satisfies it (both zero);
consequently the `debug_assert_eq!(len_virt, data.len())` at the end of
`extend`'s write branch holds whenever that branch runs. -/
theorem extend_preserves_length_invariant :
    (∀ (s : SectionHandleMut) (batch : List ByteOrExpr),
      s.sect.kind.size < USIZE_MAX → SDInv s.sect → SDInv (extend s batch).1.sect) ∧
    (∀ (kind : Kind) (modifier : Modifier) (defn : Location × Location)
      (attrs : NormalizedSectAttrs), SDInv (SectionData.new kind modifier defn attrs)) ∧
    (∀ (s : SectionHandleMut) (batch : List ByteOrExpr),
      s.sect.kind.size < USIZE_MAX → SDInv s.sect →
      satAdd s.sect.len_virt (totalLen batch) ≤ s.sect.kind.size →
      (extend s batch).1.sect.len_virt = (extend s batch).1.sect.data.length) := by
  refine ⟨fun s batch h1 h2 => SDInv_extend s batch h1 h2, ?_, ?_⟩
  · intro kind modifier defn attrs
    refine ⟨Nat.zero_le _, ?_, ?_⟩ <;> simp [SectionData.new]
  · intro s batch h1 h2 h3
    have hinv := SDInv_extend s batch h1 h2
    cases hd : s.sect.kind.has_data with
    | false =>
      have hres : (extend s batch).1 = s := by simp [extend, hd]
      rw [hres]
      have hle0 : s.sect.len_virt ≤ satAdd s.sect.len_virt (totalLen batch) :=
        Nat.le_min.mpr ⟨Nat.le_add_right _ _, h2.1⟩
      exact (h2.2.2 (hle0.trans h3)).symm
    | true =>
      have hlv := extend_sect_len_virt s batch hd
      have hk := extend_sect_kind s batch
      refine (hinv.2.2 ?_).symm
      rw [hlv, hk]
      exact h3

/-- Witness for C10 at concrete inputs: the invariant after a one-byte
emission into a fresh section, the invariant of a freshly created section,
and the debug assertion's equality after that emission. -/
theorem extend_preserves_length_invariant_witness :
    SDInv (extend exFresh [ByteOrExpr.Byte 7]).1.sect ∧
    SDInv (SectionData.new exKindTiny .Normal (0, 0) exAttrs0) ∧
    (extend exFresh [ByteOrExpr.Byte 7]).1.sect.len_virt =
      (extend exFresh [ByteOrExpr.Byte 7]).1.sect.data.length := by
  have h := extend_preserves_length_invariant
  exact ⟨h.1 exFresh [ByteOrExpr.Byte 7] (by decide) (by decide),
    h.2.1 exKindTiny .Normal (0, 0) exAttrs0,
    h.2.2 exFresh [ByteOrExpr.Byte 7] (by decide) (by decide) (by decide)⟩

/-- C4: redeclaring a name whose stored record has the `Normal` modifier
always fails with `SectAlreadyDefined` carrying the prior definition's
location, whatever the new declaration's kind, modifier, or attrs are. -/
theorem normal_redefinition_conflicts (s : Sections) (name : String)
    (other : SectionData) (kind : Kind) (modifier : Modifier)
    (attrs : NormalizedSectAttrs) (b e : Location)
    (hfind : s.sections.lookup name = some other)
    (hmod : other.modifier = .Normal) :
    add_section s name kind modifier attrs b e =
      .error ⟨b, e, .SectAlreadyDefined name
        (other.definition.1, some other.definition.2)⟩ := by
  simp [add_section, hfind, hmod, makeDiagInfo]

/-- A store holding one `Normal`-modifier section named "a". -/
def exStoreNormal : Sections :=
  { sections := [("a", SectionData.new exKindRom .Normal (10, 11) exAttrs0)],
    stack := [none] }

/-- Witness for C4 at a concrete input: redeclaring "a" — even with
identical kind, modifier and attrs — fails with the prior location. -/
theorem normal_redefinition_conflicts_witness :
    add_section exStoreNormal "a" exKindRom .Normal exAttrs0 20 21 =
      .error ⟨20, 21, .SectAlreadyDefined "a" (10, some 11)⟩ := by
  have h := normal_redefinition_conflicts exStoreNormal "a"
    (SectionData.new exKindRom .Normal (10, 11) exAttrs0) exKindRom .Normal
    exAttrs0 20 21 rfl rfl
  exact h.trans rfl

/-- C5: redeclaring an existing `Union` section with matching modifier and
kind fails with `RomUnion` when the kind holds emittable data; when it does
not, and the attribute merge succeeds, the redeclaration succeeds and the
active scope's cursor for the section restarts at offset 0. -/
theorem union_second_branch (s : Sections) (name : String)
    (other : SectionData) (kind : Kind) (attrs : NormalizedSectAttrs)
    (b e : Location)
    (hfind : s.sections.lookup name = some other)
    (hmod : other.modifier = .Union)
    (hkind : other.kind = kind) :
    (kind.has_data = true →
      add_section s name kind .Union attrs b e = .error ⟨b, e, .RomUnion kind⟩) ∧
    (∀ a, kind.has_data = false → other.attrs.merge_union name attrs = .ok a →
      add_section s name kind .Union attrs b e =
        .ok { sections := updateSection s.sections name { other with attrs := a },
              stack := set_active s.stack name 0 } ∧
      (set_active s.stack name 0).head? = some (some (ActiveSection.new name 0))) := by
  constructor
  · intro hd
    simp [add_section, hfind, hmod, hkind, hd]
  · intro a hd hmerge
    refine ⟨?_, set_active_head _ _ _⟩
    simp [add_section, hfind, hmod, hkind, hd, hmerge]

/-- A store holding one data-holding `Union` section named "u". -/
def exStoreUnionRom : Sections :=
  { sections := [("u", SectionData.new exKindRom .Union (1, 2) exAttrs0)],
    stack := [none] }

/-- A store holding one reservation-only `Union` section named "v". -/
def exStoreUnionBss : Sections :=
  { sections := [("v", SectionData.new exKindBss .Union (1, 2) exAttrs0)],
    stack := [none] }

/-- Witness for C5 at concrete inputs: a data-holding union branch fails
with `RomUnion`; a reservation-only branch succeeds with the cursor back at
offset 0. -/
theorem union_second_branch_witness :
    add_section exStoreUnionRom "u" exKindRom .Union exAttrs0 3 4 =
      .error ⟨3, 4, .RomUnion exKindRom⟩ ∧
    add_section exStoreUnionBss "v" exKindBss .Union exAttrs0 3 4 =
      .ok { sections := [("v", SectionData.new exKindBss .Union (1, 2) exAttrs0)],
            stack := [some (ActiveSection.new "v" 0)] } := by
  have h1 := (union_second_branch exStoreUnionRom "u"
    (SectionData.new exKindRom .Union (1, 2) exAttrs0) exKindRom exAttrs0 3 4
    rfl rfl rfl).1 rfl
  have h2 := (union_second_branch exStoreUnionBss "v"
    (SectionData.new exKindBss .Union (1, 2) exAttrs0) exKindBss exAttrs0 3 4
    rfl rfl rfl).2 exAttrs0 rfl rfl
  exact ⟨h1, h2.1.trans rfl⟩

/-- C6: redeclaring an existing `Fragment` section with matching modifier
and kind succeeds once the bank reconciliation does, and the active scope's
cursor starts at the section's current accumulated length (its
`len_virt`), not at 0. -/
theorem fragment_redefinition_offset (s : Sections) (name : String)
    (other : SectionData) (kind : Kind) (attrs a : NormalizedSectAttrs)
    (b e : Location)
    (hfind : s.sections.lookup name = some other)
    (hmod : other.modifier = .Fragment)
    (hkind : other.kind = kind)
    (hmerge : other.attrs.concat_fragments name attrs = .ok a) :
    add_section s name kind .Fragment attrs b e =
      .ok { sections := updateSection s.sections name { other with attrs := a },
            stack := set_active s.stack name other.len_virt } ∧
    (set_active s.stack name other.len_virt).head? =
      some (some (ActiveSection.new name other.len_virt)) := by
  refine ⟨?_, set_active_head _ _ _⟩
  simp [add_section, hfind, hmod, hkind, hmerge]

/-- A `Fragment` section record that has accumulated five bytes. -/
def exFragData : SectionData :=
  { SectionData.new exKindRom .Fragment (1, 2) exAttrs0 with
    data := [1, 2, 3, 4, 5], len_virt := 5 }

/-- A store holding the five-byte fragment section under the name "f". -/
def exStoreFrag : Sections :=
  { sections := [("f", exFragData)], stack := [none] }

/-- Witness for C6 at a concrete input: redeclaring fragment "f" puts the
cursor at offset 5 (the accumulated length), not 0. -/
theorem fragment_redefinition_offset_witness :
    add_section exStoreFrag "f" exKindRom .Fragment exAttrs0 3 4 =
      .ok { sections := [("f", { exFragData with attrs := exAttrs0 })],
            stack := [some (ActiveSection.new "f" 5)] } ∧
    (ActiveSection.new "f" 5).offset = 5 ∧ (5 : Nat) ≠ 0 := by
  have h := fragment_redefinition_offset exStoreFrag "f" exFragData exKindRom
    exAttrs0 exAttrs0 3 4 rfl rfl rfl rfl
  exact ⟨h.1.trans rfl, rfl, by decide⟩

/-- C7: normalization's rejections. An explicit address outside the 16-bit
range is `AddrOutOfRange`; one inside it but outside `[kind.start,
kind.start + kind.size - 1]` is `AddrOutOfBounds` (the source's
`addr.wrapping_sub(start_addr) < size` test, under the `u16`-level facts
that the region fits below `2^16` and is nonempty); an explicit bank on a
non-bankable kind is `Unbanked`; a bank (after the `i32 -> u32` cast)
outside the kind's legal bank range is `BankOutOfRange`. -/
theorem normalize_rejections (kind : Kind)
    (hk : kind.start_addr + kind.size ≤ 65536) (hk1 : 1 ≤ kind.size) :
    (∀ (a : Int) (bank al ofs : Option Int), (a < 0 ∨ 65536 ≤ a) →
      try_new kind (some a) bank al ofs = .error (.AddrOutOfRange a)) ∧
    (∀ (a : Int) (bank al ofs : Option Int), 0 ≤ a → a < 65536 →
      (a.toNat < kind.start_addr ∨ kind.start_addr + kind.size ≤ a.toNat) →
      try_new kind (some a) bank al ofs =
        .error (.AddrOutOfBounds a.toNat kind.start_addr
          (kind.start_addr + (kind.size - 1)))) ∧
    (∀ (b : Int) (al ofs : Option Int), kind.bankable = false →
      try_new kind none (some b) al ofs = .error (.Unbanked kind)) ∧
    (∀ (b : Int) (al ofs : Option Int), kind.bankable = true →
      ¬(kind.banks_start ≤ (b % 4294967296).toNat ∧
        (b % 4294967296).toNat ≤ kind.banks_end) →
      try_new kind none (some b) al ofs =
        .error (.BankOutOfRange (b % 4294967296).toNat kind.banks_start
          kind.banks_end)) := by
  refine ⟨?_, ?_, ?_, ?_⟩
  · intro a bank al ofs h
    have hcond : ¬(0 ≤ a ∧ a < 65536) := by omega
    simp [try_new, checkAddr, hcond]
  · intro a bank al ofs h0 h1 hout
    have hcond : 0 ≤ a ∧ a < 65536 := ⟨h0, h1⟩
    have hw : ¬(wsub16 a.toNat kind.start_addr < kind.size) := by
      unfold wsub16
      omega
    simp [try_new, checkAddr, hcond, hw]
  · intro b al ofs hb
    simp [try_new, checkAddr, checkBank, hb]
  · intro b al ofs hb hout
    have hbank : checkBank kind (some b) =
        .error (.BankOutOfRange (b % 4294967296).toNat kind.banks_start
          kind.banks_end) := by
      simp only [checkBank]
      rw [hb, if_neg (by simp), if_neg hout]
    simp [try_new, checkAddr, hbank]

/-- Witness for C7 at concrete inputs: out-of-range and out-of-bounds
addresses on a switchable-ROM-like kind, a bank on a non-bankable kind, and
an out-of-range bank. -/
theorem normalize_rejections_witness :
    try_new exKindRomx (some 70000) none none none =
      .error (.AddrOutOfRange 70000) ∧
    try_new exKindRomx (some 1000) none none none =
      .error (.AddrOutOfBounds 1000 16384 32767) ∧
    try_new exKindHram none (some 1) none none = .error (.Unbanked exKindHram) ∧
    try_new exKindRomx none (some 600) none none =
      .error (.BankOutOfRange 600 1 511) := by
  have h1 := (normalize_rejections exKindRomx (by decide) (by decide)).1
    70000 none none none (by decide)
  have h2 := (normalize_rejections exKindRomx (by decide) (by decide)).2.1
    1000 none none none (by decide) (by decide) (by decide)
  have h3 := (normalize_rejections exKindHram (by decide) (by decide)).2.2.1
    1 none none rfl
  have h4 := (normalize_rejections exKindRomx (by decide) (by decide)).2.2.2
    600 none none rfl (by decide)
  exact ⟨h1, h2.trans rfl, h3, h4.trans rfl⟩

theorem mask_eq_pow (al : Nat) (h1 : 1 ≤ al) (h16 : al ≤ 16) :
    65535 >>> (16 - al) = 2 ^ al - 1 := by
  interval_cases al <;> rfl

/-- Inverting `try_new`: a successful run ends in a successful
`postProcess`. -/
theorem try_new_ok_postProcess {kind : Kind}
    {address bank alignment offset : Option Int} {r : NormalizedSectAttrs}
    (h : try_new kind address bank alignment offset = .ok r) :
    ∃ addr bk al ofs, postProcess kind addr bk al ofs = .ok r := by
  unfold try_new at h
  cases ha : checkAddr kind address with
  | error e => rw [ha] at h; exact absurd h (by simp)
  | ok addr =>
    rw [ha] at h
    dsimp only at h
    cases hb : checkBank kind bank with
    | error e => rw [hb] at h; exact absurd h (by simp)
    | ok bk =>
      rw [hb] at h
      dsimp only at h
      cases hc : checkAlign alignment with
      | error e => rw [hc] at h; exact absurd h (by simp)
      | ok al =>
        rw [hc] at h
        dsimp only at h
        cases hd : checkAlignOfs al offset with
        | error e => rw [hd] at h; exact absurd h (by simp)
        | ok ofs =>
          rw [hd] at h
          dsimp only at h
          exact ⟨addr, bk, al, ofs, h⟩

/-- The invariant established by `postProcess`: a returned record with a
pinned address always carries alignment 0. -/
theorem postProcess_alignment_zero {kind : Kind} {addr bk : Option Nat}
    {al ofs : Nat} {r : NormalizedSectAttrs}
    (h : postProcess kind addr bk al ofs = .ok r)
    (hsome : r.address.isSome = true) : r.alignment = 0 := by
  simp only [postProcess] at h
  rcases addr with _ | a <;> dsimp only at h
  · by_cases hal : al ≠ 0
    · rw [if_pos hal] at h
      by_cases hov : kind.start_addr &&& (65535 >>> (16 - al)) ≠ 0
      · rw [if_pos hov] at h
        exact absurd h (by simp)
      · rw [if_neg hov] at h
        by_cases h16 : al = 16
        · rw [if_pos h16] at h
          injection h with h
          rw [← h]
        · rw [if_neg h16] at h
          injection h with h
          rw [← h] at hsome
          simp at hsome
    · rw [if_neg hal] at h
      injection h with h
      rw [← h]
      simpa using (by omega : al = 0)
  · by_cases hal : al ≠ 0
    · rw [if_pos hal] at h
      by_cases hm : a &&& (65535 >>> (16 - al)) ≠ ofs
      · rw [if_pos hm] at h
        exact absurd h (by simp)
      · rw [if_neg hm] at h
        injection h with h
        rw [← h]
    · rw [if_neg hal] at h
      injection h with h
      rw [← h]
      simpa using (by omega : al = 0)

/-- C8: with an explicit in-bounds address, an alignment `a` in 1..16 and
an alignment offset `o < 2^a`, normalization fails with `AlignMismatch`
exactly when `address &&& ((1 <<< a) - 1) ≠ o`, and succeeds (collapsing
alignment to 0) when the low bits match; moreover any `NormalizedSectAttrs`
that `try_new` returns with a pinned address has alignment 0. -/
theorem normalize_alignment (kind : Kind) :
    (∀ (a al o : Int),
      kind.start_addr + kind.size ≤ 65536 →
      0 ≤ a → a < 65536 →
      kind.start_addr ≤ a.toNat → a.toNat < kind.start_addr + kind.size →
      1 ≤ al → al ≤ 16 → 0 ≤ o → o < (2 : Int) ^ al.toNat →
      ((a.toNat &&& (2 ^ al.toNat - 1) ≠ o.toNat →
        try_new kind (some a) none (some al) (some o) =
          .error (.AlignMismatch a.toNat al.toNat o.toNat)) ∧
       (a.toNat &&& (2 ^ al.toNat - 1) = o.toNat →
        try_new kind (some a) none (some al) (some o) =
          .ok { address := some a.toNat,
                bank := if kind.banks_start = kind.banks_end then
                  some kind.banks_start else none,
                alignment := 0, align_offset := o.toNat }))) ∧
    (∀ (address bank alignment offset : Option Int) (r : NormalizedSectAttrs),
      try_new kind address bank alignment offset = .ok r →
      r.address.isSome = true → r.alignment = 0) := by
  constructor
  · intro a al o hk h0 h1 hlo hhi hal1 hal16 ho0 hob
    have hcond : 0 ≤ a ∧ a < 65536 := ⟨h0, h1⟩
    have hw : wsub16 a.toNat kind.start_addr < kind.size := by
      unfold wsub16
      omega
    have haddr : checkAddr kind (some a) = .ok (some a.toNat) := by
      simp [checkAddr, hcond, hw]
    have halc : 0 ≤ al ∧ al ≤ 16 := ⟨by omega, hal16⟩
    have halign : checkAlign (some al) = .ok al.toNat := by
      simp [checkAlign, halc]
    have hoc : 0 ≤ o ∧ o < (2 : Int) ^ al.toNat := ⟨ho0, hob⟩
    have hofs : checkAlignOfs al.toNat (some o) = .ok o.toNat := by
      simp [checkAlignOfs, hoc]
    have halnz : al.toNat ≠ 0 := by omega
    have hm : (65535 : Nat) >>> (16 - al.toNat) = 2 ^ al.toNat - 1 :=
      mask_eq_pow al.toNat (by omega) (by omega)
    constructor
    · intro hne
      have hne' : ¬ a.toNat % 2 ^ al.toNat = o.toNat := by
        rw [← Nat.and_pow_two_sub_one_eq_mod]
        exact hne
      simp [try_new, haddr, checkBank, halign, hofs, postProcess, halnz, hm, hne']
    · intro heq
      have heq' : a.toNat % 2 ^ al.toNat = o.toNat := by
        rw [← Nat.and_pow_two_sub_one_eq_mod]
        exact heq
      simp [try_new, haddr, checkBank, halign, hofs, postProcess, halnz, hm, heq']
  · intro address bank alignment offset r h hsome
    obtain ⟨addr, bk, al, ofs, hp⟩ := try_new_ok_postProcess h
    exact postProcess_alignment_zero hp hsome

/-- Witness for C8 at concrete inputs: on the switchable-ROM-like kind,
address `0x4004` with alignment 3 succeeds for offset 4 (and the returned
attrs carry alignment 0) and fails with `AlignMismatch` for offset 5. -/
theorem normalize_alignment_witness :
    try_new exKindRomx (some 16388) none (some 3) (some 4) =
      .ok { address := some 16388, bank := none, alignment := 0,
            align_offset := 4 } ∧
    try_new exKindRomx (some 16388) none (some 3) (some 5) =
      .error (.AlignMismatch 16388 3 5) ∧
    ({ address := some 16388, bank := none, alignment := 0,
       align_offset := 4 } : NormalizedSectAttrs).alignment = 0 := by
  have hgood := ((normalize_alignment exKindRomx).1 16388 3 4
    (by decide) (by decide) (by decide) (by decide) (by decide) (by decide)
    (by decide) (by decide) (by decide)).2 (by decide)
  have hbad := ((normalize_alignment exKindRomx).1 16388 3 5
    (by decide) (by decide) (by decide) (by decide) (by decide) (by decide)
    (by decide) (by decide) (by decide)).1 (by decide)
  have hok : try_new exKindRomx (some 16388) none (some 3) (some 4) =
      .ok { address := some 16388, bank := none, alignment := 0,
            align_offset := 4 } := hgood.trans rfl
  have hinv := (normalize_alignment exKindRomx).2 (some 16388) none (some 3)
    (some 4) _ hok rfl
  exact ⟨hok, hbad.trans rfl, hinv⟩

end Rsgbds
